import Mathlib

/-!
Verification development for the micboard live-plan scheduling and
slot-assignment resolver.

The frontend logic is embedded from the JavaScript sources:
  - js/app.js          : updateLiveServiceIndicator, applySlotAssignmentsToUI
  - js/pco-schedule.js : renderPlansList status computation, renderPlanActions
  - js/integrations.js : displayUpcomingPlans status, renderPlanActions

Timestamps are modelled as integers (milliseconds since the epoch, in the
display timezone, with calendar days of constant length 86400000 ms). The
JavaScript setHours(23,59,59,999) end-of-day computation becomes
subtracting the ms-of-day and adding 86399999.

The server-side scheduler (py/pco_scheduler.py and the tornado handlers)
is not part of the sources available here; the definitions below whose doc
comments begin with "Modelled from the spec:" embed those components from
the specification text instead.
-/

/-- Milliseconds per calendar day in the fixed display-timezone model. -/
def msPerDay : Int := 86400000

/-- End of day of a timestamp, as computed in js/app.js (lines 140-141):
the service start with time-of-day forced to 23:59:59.999, i.e. the last
representable millisecond of the same calendar day. -/
def endOfDay (t : Int) : Int := t - t % msPerDay + 86399999

/-- Live-window test from js/app.js line 154: now is at or after the live
start and at or before the end of day of the service start, both bounds
inclusive. -/
def isLive (liveTime serviceTime now : Int) : Bool :=
  decide (liveTime ≤ now) && decide (now ≤ endOfDay serviceTime)

/-- JavaScript f || g on two optional values: the first if present, else
the second. -/
def jsOr {α : Type} (a b : Option α) : Option α :=
  match a with
  | some x => some x
  | none => b

/-- JavaScript string truthiness on an optional JSON field: present and
non-empty. -/
def jsTruthyStr (o : Option String) : Bool :=
  match o with
  | some s => !(s == "")
  | none => false

/-- One entry of the plan_of_day array read from data.json by
updateLiveServiceIndicator in js/app.js. Optional fields model JSON fields
that may be absent or empty (JavaScript falsy); timestamps are already
parsed to milliseconds. -/
structure Pod where
  plan_id : Option String
  start_time : Option Int
  service_time : Option Int
  live_time : Option Int
  service_type_name : Option String
  title : Option String
  names_by_slot : Option (List (Nat × String))
  slot_assignments : Option (List (Nat × String))
  is_live : Bool
  is_manual : Bool
deriving DecidableEq

/-- Display name used by the navbar indicator, js/app.js lines 158 and 183:
service_type_name, else title, else the literal Service. -/
def serviceName (pod : Pod) : String :=
  match jsOr (if jsTruthyStr pod.service_type_name then pod.service_type_name else none)
             (if jsTruthyStr pod.title then pod.title else none) with
  | some s => s
  | none => "Service"

/-- Plan-of-day choice in js/app.js lines 110-117: the first entry with
is_live set, else the first entry of the array, else nothing. -/
def podOfDay (planOfDay : List Pod) : Option Pod :=
  match planOfDay.find? (fun p => p.is_live) with
  | some p => some p
  | none => planOfDay.head?

/-- Outcome of one run of the navbar live-service indicator. -/
inductive IndicatorState where
  | liveService (serviceTypeName : String)
  | manualService (serviceTypeName : String)
  | noService
deriving DecidableEq

/-- What one run of updateLiveServiceIndicator does: the indicator state,
the slot assignments it applies to the UI (none when it applies nothing),
and whether it fires the force-refresh-schedule POST request. -/
structure IndicatorOutcome where
  state : IndicatorState
  applied : Option (List (Nat × String))
  refreshCache : Bool
deriving DecidableEq

/-- Decision logic of updateLiveServiceIndicator in js/app.js lines
109-206, for plan_of_day in the array format. After choosing the plan of
day: if it has a service start (start_time or service_time) and a
live_time, and now lies in the inclusive window from live start to end of
day, the service is shown live, its slot assignments (names_by_slot or
slot_assignments, if present) are applied, and a schedule-cache
force-refresh request is fired; otherwise, if the entry has a truthy
plan_id and now is before the live start, it is shown as a manually
selected plan and its slot assignments are applied; otherwise No Service
is shown. -/
def indicatorCore (pod : Pod) (serviceStart liveStart now : Int) : IndicatorOutcome :=
  if liveStart ≤ now ∧ now ≤ endOfDay serviceStart then
    ⟨IndicatorState.liveService (serviceName pod),
      jsOr pod.names_by_slot pod.slot_assignments, true⟩
  else if jsTruthyStr pod.plan_id = true ∧ now < liveStart then
    ⟨IndicatorState.manualService (serviceName pod),
      jsOr pod.names_by_slot pod.slot_assignments, false⟩
  else
    ⟨IndicatorState.noService, none, false⟩

/-- Guard of js/app.js line 135: both a service start and a live time must
be present and truthy for the window check to run. -/
def matchServiceTimes (pod : Pod) : Option Int → Option Int → Int → IndicatorOutcome
  | some serviceStart, some liveStart, now => indicatorCore pod serviceStart liveStart now
  | _, _, _ => ⟨IndicatorState.noService, none, false⟩

/-- Dispatch on the chosen plan-of-day entry: its service start is
start_time, falling back to service_time. -/
def indicatorForPod : Option Pod → Int → IndicatorOutcome
  | none, _ => ⟨IndicatorState.noService, none, false⟩
  | some pod, now =>
    matchServiceTimes pod (jsOr pod.start_time pod.service_time) pod.live_time now

/-- Full indicator run on the plan_of_day list. -/
def updateLiveServiceIndicator (planOfDay : List Pod) (now : Int) : IndicatorOutcome :=
  indicatorForPod (podOfDay planOfDay) now

/-- Clearing pass of applySlotAssignmentsToUI, js/app.js lines 423-428:
every existing slot name input for slots 1 through 6 is set to the empty
string. The present predicate tells which slot elements exist in the DOM. -/
def clearSlots (present : Nat → Bool) (slots : Nat → String) : Nat → String :=
  fun n => if 1 ≤ n ∧ n ≤ 6 ∧ present n = true then "" else slots n

/-- Application pass of applySlotAssignmentsToUI, js/app.js lines 431-440:
each mapping entry writes its person name into the slot input when that
element exists. -/
def applyEntries (entries : List (Nat × String)) (present : Nat → Bool)
    (slots : Nat → String) : Nat → String :=
  entries.foldl
    (fun acc e => fun n => if present e.1 = true ∧ n = e.1 then e.2 else acc n)
    slots

/-- applySlotAssignmentsToUI from js/app.js lines 419-448: first clear the
slot names of slots 1-6, then apply the given mapping, then click the save
button when it exists (second component: whether the save was triggered,
persisting the slot configuration). -/
def applySlotAssignmentsToUI (entries : List (Nat × String)) (present : Nat → Bool)
    (slots : Nat → String) (saveButtonPresent : Bool) : (Nat → String) × Bool :=
  (applyEntries entries present (clearSlots present slots), saveButtonPresent)

/-- One plan record of the upcoming-plans list consumed by
js/pco-schedule.js and js/integrations.js. -/
structure UIPlan where
  plan_id : String
  service_type_name : String
  title : String
  dates : String
  live_time : Int
  service_time : Int
  is_live : Bool
  is_manual : Bool
  slot_assignments : List (Nat × String)
deriving DecidableEq

/-- Status string computed per plan by renderPlansList in
js/pco-schedule.js lines 65-84: manual-live or live when is_live is set,
ready when the live time has been reached but the service time has not,
upcoming otherwise. -/
def planStatus (plan : UIPlan) (now : Int) : String :=
  if plan.is_live then
    if plan.is_manual then "manual-live" else "live"
  else if plan.live_time ≤ now ∧ now < plan.service_time then "ready"
  else "upcoming"

/-- Action rendered in the plan row of the schedule views. -/
inductive PlanAction where
  | clearManual
  | currentlyLive
  | setLive
  | cannotSet
deriving DecidableEq

/-- renderPlanActions from js/pco-schedule.js lines 121-142: manual plans
get a clear button, the live plan shows Currently Live, Set Live is
offered only when the status is not live and no plan in the list is
automatically live, and otherwise the action is disabled. -/
def renderPlanActionsPco (plans : List UIPlan) (plan : UIPlan) (status : String) : PlanAction :=
  let canSetManual : Bool :=
    (!(status == "live")) && (!(plans.any (fun p => p.is_live && !p.is_manual)))
  if plan.is_manual then PlanAction.clearManual
  else if status == "live" then PlanAction.currentlyLive
  else if canSetManual then PlanAction.setLive
  else PlanAction.cannotSet

/-- renderPlanActions from js/integrations.js lines 1035-1056: the current
manual plan gets a clear button, the live non-manual plan shows Currently
Live, Set Live is offered only when there is no current plan (or the plan
itself is manual) and the status is not live, and otherwise the action is
disabled. -/
def renderPlanActionsIntegrations (plan : UIPlan) (status : String)
    (currentPlanId : Option String) : PlanAction :=
  let hasLivePlan : Bool := jsTruthyStr currentPlanId && !plan.is_manual
  if (some plan.plan_id == currentPlanId) && plan.is_manual then PlanAction.clearManual
  else if (status == "live") && !plan.is_manual then PlanAction.currentlyLive
  else if (!hasLivePlan) && (!(status == "live")) then PlanAction.setLive
  else PlanAction.cannotSet

/-- Status string computed per plan by displayUpcomingPlans in
js/integrations.js lines 960-978: the current plan shows as live or
manual-live, otherwise ready when inside the pre-service window, else
upcoming. -/
def integrationsPlanStatus (plan : UIPlan) (currentPlanId : Option String) (now : Int) : String :=
  if some plan.plan_id == currentPlanId then
    if plan.is_manual then "manual-live" else "live"
  else if plan.live_time ≤ now ∧ now < plan.service_time then "ready"
  else "upcoming"

/-- One team/position assignment of a plan, as in the specification data
model. -/
structure Assignment where
  teamName : String
  positionName : String
  personName : String
  status : String
deriving DecidableEq

/-- One plan record of the schedule cache, as in the specification data
model. -/
structure PlanRecord where
  plan_id : String
  serviceTypeId : String
  serviceTypeName : String
  title : String
  serviceTime : Int
  liveTime : Int
  assignments : List Assignment
deriving DecidableEq

/-- Live-window test for a cached plan: the same inclusive window as the
frontend check. -/
def planIsLive (p : PlanRecord) (now : Int) : Bool :=
  isLive p.liveTime p.serviceTime now

/-- Lexicographic strict comparison of character lists by code point. -/
def strLtList : List Char → List Char → Bool
  | [], [] => false
  | [], _ :: _ => true
  | _ :: _, [] => false
  | a :: as, b :: bs =>
    if a.toNat < b.toNat then true
    else if b.toNat < a.toNat then false
    else strLtList as bs

/-- Lexicographic strict comparison of strings by code point. -/
def strLt (s t : String) : Bool := strLtList s.data t.data

/-- Modelled from the spec: the PlanSelector tie-break order (the
server-side scheduler in py/pco_scheduler.py is not among the sources);
a plan is better when its service time is earlier, or equal with a
lexicographically smaller plan id. -/
def planBetter (a b : PlanRecord) : Bool :=
  decide (a.serviceTime < b.serviceTime)
    || (decide (a.serviceTime = b.serviceTime) && strLt a.plan_id b.plan_id)

/-- Fold step selecting the better of the current candidate and the next
plan, keeping the current candidate on ties. -/
def pickBetter (acc : Option PlanRecord) (p : PlanRecord) : Option PlanRecord :=
  match acc with
  | none => some p
  | some q => if planBetter p q then some p else some q

/-- Modelled from the spec: the autoLive computation of the PlanSelector
(the server-side scheduler is not among the sources) - the live plan of
the cache, tie-broken by earliest service time then lowest plan id. -/
def autoLive (cache : List PlanRecord) (now : Int) : Option PlanRecord :=
  (cache.filter (fun p => planIsLive p now)).foldl pickBetter none

/-- Modelled from the spec: the PlanSelector resolution (the server-side
scheduler is not among the sources) - an automatically live plan wins over
any manual pin; with no auto-live plan a pin naming a cached plan resolves
to that plan with the manual flag; otherwise no service. -/
def pinLookup : Option PlanRecord → Option PlanRecord × Bool
  | some p => (some p, true)
  | none => (none, false)

/-- Pin resolution against the cache: a set pin is looked up by plan id. -/
def selectFromPin (cache : List PlanRecord) : Option String → Option PlanRecord × Bool
  | some pid => pinLookup (cache.find? (fun p => p.plan_id == pid))
  | none => (none, false)

/-- Resolution entry point: automatic detection first, then the pin. -/
def selectPlan (cache : List PlanRecord) (pin : Option String) (now : Int) :
    Option PlanRecord × Bool :=
  match autoLive cache now with
  | some p => (some p, false)
  | none => selectFromPin cache pin

/-- The manual-override store: at most one pinned plan id with its set
time. -/
structure OverrideStore where
  planId : Option String
  setAt : Option Int
deriving DecidableEq

/-- Result of a set-manual-plan request. -/
inductive SetPlanResult where
  | ok
  | notFound
deriving DecidableEq

/-- Modelled from the spec: the server-side set-manual-plan handler (the
tornado handler is not among the sources) - setting a plan id absent from
the cache fails with NotFound and leaves the store unchanged; otherwise
the pin is recorded with setAt equal to now. -/
def setManualPlan (cache : List PlanRecord) (store : OverrideStore) (planId : String)
    (now : Int) : SetPlanResult × OverrideStore :=
  if cache.any (fun p => p.plan_id == planId) then
    (SetPlanResult.ok, { planId := some planId, setAt := some now })
  else
    (SetPlanResult.notFound, store)

/-- One configured slot-to-team/position rule. -/
structure ReuseRule where
  slot : Nat
  teamName : String
  positionName : String
deriving DecidableEq

/-- Eligibility filter: only confirmed or accepted assignments are shown. -/
def eligible (a : Assignment) : Bool :=
  a.status == "confirmed" || a.status == "accepted"

/-- Whether an assignment fills the team/position of a rule with an
eligible status. -/
def matchesRule (r : ReuseRule) (a : Assignment) : Bool :=
  (a.teamName == r.teamName) && (a.positionName == r.positionName) && eligible a

/-- Modelled from the spec: the SlotAssignmentMapper (the server-side
scheduler is not among the sources) - for each rule the first assignment
matching its team and position with a confirmed or accepted status yields
a binding of the slot to the person name; rules with no such assignment
contribute nothing. -/
def mapSlots (assignments : List Assignment) (rules : List ReuseRule) :
    List (Nat × String) :=
  rules.filterMap
    (fun r => (assignments.find? (matchesRule r)).map (fun a => (r.slot, a.personName)))

/-- Modelled from the spec: getCurrentSlotAssignments (the server side is
not among the sources) - the slot mapping of the currently resolved plan,
empty when none. -/
def getCurrentSlotAssignments (cache : List PlanRecord) (pin : Option String)
    (now : Int) (rules : List ReuseRule) : List (Nat × String) :=
  match (selectPlan cache pin now).1 with
  | some p => mapSlots p.assignments rules
  | none => []

/-! ### Helper lemmas about the orders and the selection fold -/

theorem strLtList_trans : ∀ (x y z : List Char),
    strLtList x y = true → strLtList y z = true → strLtList x z = true
  | [], [], _, h, _ => by simp [strLtList] at h
  | [], _ :: _, [], _, h => by simp [strLtList] at h
  | [], _ :: _, _ :: _, _, _ => by simp [strLtList]
  | _ :: _, [], _, h, _ => by simp [strLtList] at h
  | _ :: _, _ :: _, [], _, h => by simp [strLtList] at h
  | a :: as, b :: bs, c :: cs, h1, h2 => by
    simp only [strLtList] at *
    split at h1 <;> split at h2 <;> rename_i hab hbc
    · have hac : a.toNat < c.toNat := Nat.lt_trans hab hbc
      simp [hac]
    · split at h2 <;> rename_i hcb
      · exact absurd h2 (by simp)
      · have hbc2 : b.toNat = c.toNat :=
          Nat.le_antisymm (Nat.le_of_not_lt hcb) (Nat.le_of_not_lt hbc)
        have hac : a.toNat < c.toNat := hbc2 ▸ hab
        simp [hac]
    · split at h1 <;> rename_i hba
      · exact absurd h1 (by simp)
      · have hab2 : a.toNat = b.toNat :=
          Nat.le_antisymm (Nat.le_of_not_lt hba) (Nat.le_of_not_lt hab)
        have hac : a.toNat < c.toNat := hab2 ▸ hbc
        simp [hac]
    · split at h1 <;> rename_i hba
      · exact absurd h1 (by simp)
      · split at h2 <;> rename_i hcb
        · exact absurd h2 (by simp)
        · have hab2 : a.toNat = b.toNat :=
            Nat.le_antisymm (Nat.le_of_not_lt hba) (Nat.le_of_not_lt hab)
          have hxc : ¬ a.toNat < c.toNat := fun hc => hbc (hab2 ▸ hc)
          have hcx : ¬ c.toNat < a.toNat := fun hc => hba (by omega)
          simp only [if_neg hxc, if_neg hcx]
          exact strLtList_trans as bs cs h1 h2

theorem strLtList_conn : ∀ (x y : List Char),
    strLtList x y = false → strLtList y x = false → x = y
  | [], [], _, _ => rfl
  | [], _ :: _, h, _ => by simp [strLtList] at h
  | _ :: _, [], _, h => by simp [strLtList] at h
  | a :: as, b :: bs, h1, h2 => by
    simp only [strLtList] at h1 h2
    split at h1 <;> rename_i hab
    · exact absurd h1 (by simp)
    · split at h2 <;> rename_i hba
      · exact absurd h2 (by simp)
      · have hab2 : a = b :=
          Char.ext (UInt32.ext (Nat.le_antisymm (Nat.le_of_not_lt hba) (Nat.le_of_not_lt hab)))
        subst hab2
        simp only [if_neg hab] at h1 h2
        rw [strLtList_conn as bs h1 h2]

theorem strLtList_irrefl : ∀ (x : List Char), strLtList x x = false
  | [] => rfl
  | a :: as => by simp [strLtList, strLtList_irrefl as]

theorem strLt_trans (x y z : String) (h1 : strLt x y = true) (h2 : strLt y z = true) :
    strLt x z = true :=
  strLtList_trans x.data y.data z.data h1 h2

theorem strLt_conn (x y : String) (h1 : strLt x y = false) (h2 : strLt y x = false) :
    x = y := by
  have hd : x.data = y.data := strLtList_conn x.data y.data h1 h2
  cases x
  cases y
  exact congrArg String.mk hd

theorem strLt_irrefl (x : String) : strLt x x = false :=
  strLtList_irrefl x.data

theorem strLt_false_trans (x y z : String) (h1 : strLt x y = false)
    (h2 : strLt y z = false) : strLt x z = false := by
  cases hxz : strLt x z with
  | false => rfl
  | true =>
    cases hyx : strLt y x with
    | false =>
      have hxy : x = y := strLt_conn x y h1 hyx
      subst hxy
      rw [hxz] at h2
      cases h2
    | true =>
      have hyz : strLt y z = true := strLt_trans y x z hyx hxz
      rw [h2] at hyz
      cases hyz

theorem planBetter_true_iff (a b : PlanRecord) :
    planBetter a b = true ↔
      a.serviceTime < b.serviceTime
        ∨ (a.serviceTime = b.serviceTime ∧ strLt a.plan_id b.plan_id = true) := by
  simp [planBetter]

theorem planBetter_false_iff (a b : PlanRecord) :
    planBetter a b = false ↔
      ¬(a.serviceTime < b.serviceTime
        ∨ (a.serviceTime = b.serviceTime ∧ strLt a.plan_id b.plan_id = true)) := by
  rw [← planBetter_true_iff]
  cases planBetter a b <;> simp

theorem planBetter_irrefl (a : PlanRecord) : planBetter a a = false := by
  rw [planBetter_false_iff]
  rintro (h | ⟨_, h⟩)
  · omega
  · rw [strLt_irrefl] at h
    cases h

theorem planBetter_trans (a b c : PlanRecord) (h1 : planBetter a b = true)
    (h2 : planBetter b c = true) : planBetter a c = true := by
  rw [planBetter_true_iff] at h1 h2 ⊢
  rcases h1 with h1 | ⟨he1, hs1⟩
  · rcases h2 with h2 | ⟨he2, _⟩
    · exact Or.inl (by omega)
    · exact Or.inl (by omega)
  · rcases h2 with h2 | ⟨he2, hs2⟩
    · exact Or.inl (by omega)
    · exact Or.inr ⟨by omega, strLt_trans _ _ _ hs1 hs2⟩

theorem planBetter_false_trans (a b c : PlanRecord) (h1 : planBetter a b = false)
    (h2 : planBetter b c = false) : planBetter a c = false := by
  rw [planBetter_false_iff] at h1 h2 ⊢
  push_neg at h1 h2 ⊢
  obtain ⟨hi1, hs1⟩ := h1
  obtain ⟨hi2, hs2⟩ := h2
  refine ⟨by omega, ?_⟩
  intro hac
  have he1 : a.serviceTime = b.serviceTime := by omega
  have he2 : b.serviceTime = c.serviceTime := by omega
  have hx1 : strLt a.plan_id b.plan_id = false := by
    have := hs1 he1
    cases h : strLt a.plan_id b.plan_id
    · rfl
    · exact absurd h this
  have hx2 : strLt b.plan_id c.plan_id = false := by
    have := hs2 he2
    cases h : strLt b.plan_id c.plan_id
    · rfl
    · exact absurd h this
  rw [strLt_false_trans _ _ _ hx1 hx2]
  simp

theorem foldl_pickBetter (l : List PlanRecord) (q : PlanRecord) :
    ∃ c, l.foldl pickBetter (some q) = some c
      ∧ (c = q ∨ c ∈ l)
      ∧ planBetter q c = false
      ∧ ∀ p ∈ l, planBetter p c = false := by
  induction l generalizing q with
  | nil => exact ⟨q, rfl, Or.inl rfl, planBetter_irrefl q, by simp⟩
  | cons p l ih =>
    rw [List.foldl_cons]
    have hstep : pickBetter (some q) p = if planBetter p q then some p else some q := rfl
    cases hpq : planBetter p q with
    | true =>
      rw [hstep, if_pos (by rw [hpq])]
      obtain ⟨c, hc, hmem, hqc, hall⟩ := ih p
      refine ⟨c, hc, ?_, ?_, ?_⟩
      · rcases hmem with rfl | hm
        · exact Or.inr (List.mem_cons_self _ _)
        · exact Or.inr (List.mem_cons_of_mem _ hm)
      · cases hqc2 : planBetter q c with
        | false => rfl
        | true =>
          have hcontr := planBetter_trans p q c hpq hqc2
          rw [hqc] at hcontr
          cases hcontr
      · intro r hr
        rcases List.mem_cons.mp hr with rfl | hm
        · exact hqc
        · exact hall r hm
    | false =>
      rw [hstep, if_neg (by rw [hpq]; simp)]
      obtain ⟨c, hc, hmem, hqc, hall⟩ := ih q
      refine ⟨c, hc, ?_, hqc, ?_⟩
      · rcases hmem with rfl | hm
        · exact Or.inl rfl
        · exact Or.inr (List.mem_cons_of_mem _ hm)
      · intro r hr
        rcases List.mem_cons.mp hr with rfl | hm
        · exact planBetter_false_trans r q c hpq hqc
        · exact hall r hm

theorem autoLive_min (cache : List PlanRecord) (now : Int) (A : PlanRecord)
    (hA : A ∈ cache) (hAlive : planIsLive A now = true) :
    ∃ c, autoLive cache now = some c ∧ c ∈ cache ∧ planIsLive c now = true
      ∧ ∀ p ∈ cache, planIsLive p now = true → planBetter p c = false := by
  have hAf : A ∈ cache.filter (fun p => planIsLive p now) :=
    List.mem_filter.mpr ⟨hA, hAlive⟩
  unfold autoLive
  cases hl : cache.filter (fun p => planIsLive p now) with
  | nil =>
    rw [hl] at hAf
    cases hAf
  | cons h t =>
    rw [List.foldl_cons]
    have hinit : pickBetter none h = some h := rfl
    rw [hinit]
    obtain ⟨c, hc, hmem, hqc, hall⟩ := foldl_pickBetter t h
    have hcin : c ∈ cache.filter (fun p => planIsLive p now) := by
      rw [hl]
      rcases hmem with rfl | hm
      · exact List.mem_cons_self _ _
      · exact List.mem_cons_of_mem _ hm
    have hcc := List.mem_filter.mp hcin
    refine ⟨c, hc, hcc.1, hcc.2, ?_⟩
    intro p hp hplive
    have hpin : p ∈ cache.filter (fun q => planIsLive q now) :=
      List.mem_filter.mpr ⟨hp, hplive⟩
    rw [hl] at hpin
    rcases List.mem_cons.mp hpin with rfl | hm
    · exact hqc
    · exact hall p hm

theorem autoLive_none_iff (cache : List PlanRecord) (now : Int)
    (h : ∀ p ∈ cache, planIsLive p now = false) : autoLive cache now = none := by
  unfold autoLive
  have hnil : cache.filter (fun p => planIsLive p now) = [] := by
    rw [List.filter_eq_nil_iff]
    intro p hp
    simp [h p hp]
  rw [hnil]
  rfl

/-! ### Claim theorems -/

/-- C1: a plan is considered live if and only if liveTime <= now <=
endOfDay(serviceTime), both bounds inclusive; endOfDay is the last instant
of the calendar day of the service time; a plan exactly at liveTime or
exactly at endOfDay is live, and strictly outside the window it is not. -/
theorem liveWindow_characterization (lv st now : Int) :
    (isLive lv st now = true ↔ lv ≤ now ∧ now ≤ endOfDay st)
    ∧ (st ≤ endOfDay st
      ∧ endOfDay st / msPerDay = st / msPerDay
      ∧ ∀ u : Int, u / msPerDay = st / msPerDay → u ≤ endOfDay st)
    ∧ (lv ≤ endOfDay st → isLive lv st lv = true ∧ isLive lv st (endOfDay st) = true)
    ∧ ((now < lv ∨ endOfDay st < now) → isLive lv st now = false) := by
  have hiff : ∀ n : Int, isLive lv st n = true ↔ lv ≤ n ∧ n ≤ endOfDay st := by
    intro n
    simp [isLive]
  refine ⟨hiff now, ⟨?_, ?_, ?_⟩, ?_, ?_⟩
  · unfold endOfDay msPerDay
    omega
  · unfold endOfDay msPerDay
    omega
  · intro u hu
    unfold endOfDay msPerDay at *
    omega
  · intro h
    exact ⟨(hiff lv).mpr ⟨le_refl lv, h⟩, (hiff (endOfDay st)).mpr ⟨h, le_refl _⟩⟩
  · intro h
    cases hb : isLive lv st now with
    | false => rfl
    | true =>
      have hw := (hiff now).mp hb
      exfalso
      omega

/-- C1 witness: a window with live time 0 and service time 5000 is live
exactly at its lower bound and exactly at the end of its day. -/
theorem liveWindow_characterization_witness :
    isLive 0 5000 0 = true ∧ isLive 0 5000 (endOfDay 5000) = true :=
  (liveWindow_characterization 0 5000 0).2.2.1 (by decide)

/-- C6: among two live plans, the automatic selection picks the one with
the earlier service time, tie-broken by the lexicographically smaller plan
id, and the choice is the same for a reordered cache list. -/
theorem autoLive_tiebreak_deterministic (cache1 cache2 : List PlanRecord) (now : Int)
    (hperm : cache1.Perm cache2)
    (A B : PlanRecord) (hA : A ∈ cache1) (hB : B ∈ cache1)
    (hAlive : planIsLive A now = true) (hBlive : planIsLive B now = true)
    (honly : ∀ p ∈ cache1, planIsLive p now = true → p = A ∨ p = B)
    (hbetter : A.serviceTime < B.serviceTime
      ∨ (A.serviceTime = B.serviceTime ∧ strLt A.plan_id B.plan_id = true)) :
    autoLive cache1 now = some A ∧ autoLive cache2 now = some A := by
  have hbb : planBetter A B = true := (planBetter_true_iff A B).mpr hbetter
  have key : ∀ L : List PlanRecord, L.Perm cache1 → autoLive L now = some A := by
    intro L hLp
    obtain ⟨c, hc, hcin, hclive, hmin⟩ :=
      autoLive_min L now A (hLp.mem_iff.mpr hA) hAlive
    rcases honly c (hLp.mem_iff.mp hcin) hclive with rfl | rfl
    · exact hc
    · have hfalse := hmin A (hLp.mem_iff.mpr hA) hAlive
      rw [hfalse] at hbb
      exact Bool.noConfusion hbb
  exact ⟨key cache1 (List.Perm.refl _), key cache2 hperm.symm⟩

/-- Concrete plan used by the C6 witness: same service time as its rival,
smaller plan id. -/
def planA6 : PlanRecord :=
  { plan_id := "1001", serviceTypeId := "7", serviceTypeName := "Sunday",
    title := "", serviceTime := 1000, liveTime := 0, assignments := [] }

/-- Concrete plan used by the C6 witness: same service time as its rival,
larger plan id. -/
def planB6 : PlanRecord :=
  { plan_id := "1002", serviceTypeId := "7", serviceTypeName := "Sunday",
    title := "", serviceTime := 1000, liveTime := 0, assignments := [] }

/-- C6 witness: with two overlapping live plans of equal service time, the
plan with the smaller id is selected from the list in either order. -/
theorem autoLive_tiebreak_deterministic_witness :
    autoLive [planB6, planA6] 500 = some planA6
      ∧ autoLive [planA6, planB6] 500 = some planA6 :=
  autoLive_tiebreak_deterministic [planB6, planA6] [planA6, planB6] 500
    (List.Perm.swap planA6 planB6 []) planA6 planB6 (by decide) (by decide)
    (by decide) (by decide) (by decide) (Or.inr ⟨rfl, by decide⟩)

/-- C7: setManualPlan fails with NotFound when the plan id is absent from
the current cache, leaving the override store unchanged, and succeeds
otherwise, recording setAt = now. -/
theorem setManualPlan_contract (cache : List PlanRecord) (store : OverrideStore)
    (pid : String) (now : Int) :
    ((∀ p ∈ cache, p.plan_id ≠ pid) →
      setManualPlan cache store pid now = (SetPlanResult.notFound, store))
    ∧ ((∃ p ∈ cache, p.plan_id = pid) →
      setManualPlan cache store pid now
        = (SetPlanResult.ok, { planId := some pid, setAt := some now })) := by
  constructor
  · intro h
    have hany : cache.any (fun p => p.plan_id == pid) = false := by
      rw [List.any_eq_false]
      intro p hp
      simp [h p hp]
    unfold setManualPlan
    rw [hany]
    rfl
  · intro h
    obtain ⟨p, hp, hpid⟩ := h
    have hany : cache.any (fun p => p.plan_id == pid) = true := by
      rw [List.any_eq_true]
      exact ⟨p, hp, by simp [hpid]⟩
    unfold setManualPlan
    rw [hany]
    rfl

/-- Concrete cached plan used by the C7 witness. -/
def planP7 : PlanRecord :=
  { plan_id := "P1", serviceTypeId := "1", serviceTypeName := "Main",
    title := "", serviceTime := 100, liveTime := 0, assignments := [] }

/-- Concrete override store used by the C7 witness. -/
def storeP7 : OverrideStore := { planId := some "OLD", setAt := some 5 }

/-- C7 witness: pinning an unknown id fails with NotFound and keeps the
store, pinning a cached id succeeds and records the set time. -/
theorem setManualPlan_contract_witness :
    setManualPlan [planP7] storeP7 "UNKNOWN" 99 = (SetPlanResult.notFound, storeP7)
      ∧ setManualPlan [planP7] storeP7 "P1" 99
        = (SetPlanResult.ok, { planId := some "P1", setAt := some 99 }) :=
  ⟨(setManualPlan_contract [planP7] storeP7 "UNKNOWN" 99).1 (by decide),
    (setManualPlan_contract [planP7] storeP7 "P1" 99).2 ⟨planP7, by decide, by decide⟩⟩

/-- C4: while a plan is automatically live a manual pin is inert - the
resolution yields the auto-live plan with the manual flag cleared for any
pin - and both schedule views withhold the set-manual action: the
pco-schedule view whenever some listed plan is live and not manual, the
integrations view for every non-manual plan whenever a current plan id is
set. -/
theorem autoLive_overrides_manual_pin (cache : List PlanRecord) (pin : Option String)
    (now : Int) (A : PlanRecord) (hA : autoLive cache now = some A)
    (plans : List UIPlan) (hLive : ∃ p ∈ plans, p.is_live = true ∧ p.is_manual = false) :
    selectPlan cache pin now = (some A, false)
    ∧ (∀ plan status, renderPlanActionsPco plans plan status ≠ PlanAction.setLive)
    ∧ (∀ (plan : UIPlan) (status : String) (currentPlanId : Option String),
        jsTruthyStr currentPlanId = true → plan.is_manual = false →
        renderPlanActionsIntegrations plan status currentPlanId ≠ PlanAction.setLive) := by
  refine ⟨?_, ?_, ?_⟩
  · unfold selectPlan
    rw [hA]
  · intro plan status
    have hany : plans.any (fun p => p.is_live && !p.is_manual) = true := by
      rw [List.any_eq_true]
      obtain ⟨p, hp, h1, h2⟩ := hLive
      exact ⟨p, hp, by simp [h1, h2]⟩
    cases hm : plan.is_manual with
    | true => simp [renderPlanActionsPco, hany, hm]
    | false =>
      cases hs : (status == "live") with
      | true => simp [renderPlanActionsPco, hany, hm, hs]
      | false => simp [renderPlanActionsPco, hany, hm, hs]
  · intro plan status currentPlanId hcur hm
    cases hs : (status == "live") with
    | true => simp [renderPlanActionsIntegrations, hcur, hm, hs]
    | false => simp [renderPlanActionsIntegrations, hcur, hm, hs]

/-- Concrete auto-live cached plan used by the C4 witness. -/
def planL4 : PlanRecord :=
  { plan_id := "L1", serviceTypeId := "1", serviceTypeName := "Main",
    title := "", serviceTime := 100, liveTime := 0, assignments := [] }

/-- Concrete live list entry used by the C4 witness. -/
def uiLive4 : UIPlan :=
  { plan_id := "L1", service_type_name := "Main", title := "", dates := "",
    live_time := 0, service_time := 100, is_live := true, is_manual := false,
    slot_assignments := [] }

/-- Concrete other list entry used by the C4 witness. -/
def uiOther4 : UIPlan :=
  { plan_id := "U2", service_type_name := "Main", title := "", dates := "",
    live_time := 500, service_time := 900, is_live := false, is_manual := false,
    slot_assignments := [] }

/-- C4 witness: with one plan auto-live, a pin on another id resolves to
the live plan without the manual flag, and neither view offers Set Live
for another plan. -/
theorem autoLive_overrides_manual_pin_witness :
    selectPlan [planL4] (some "U2") 50 = (some planL4, false)
      ∧ renderPlanActionsPco [uiLive4] uiOther4 "upcoming" ≠ PlanAction.setLive
      ∧ renderPlanActionsIntegrations uiOther4 "upcoming" (some "L1")
        ≠ PlanAction.setLive := by
  have h := autoLive_overrides_manual_pin [planL4] (some "U2") 50 planL4 (by decide)
    [uiLive4] ⟨uiLive4, by decide, by decide, by decide⟩
  exact ⟨h.1, h.2.1 uiOther4 "upcoming", h.2.2 uiOther4 "upcoming" (some "L1") (by decide) (by decide)⟩

/-- C10: whenever a current plan id is set, the integrations schedule view
offers the set-manual action for no plan other than the current one - also
when the current plan is only a manual pin - given that only the current
plan can carry the manual flag. -/
theorem renderPlanActionsIntegrations_no_other_setLive (plan : UIPlan) (status : String)
    (currentPlanId : Option String)
    (hcur : jsTruthyStr currentPlanId = true)
    (hinv : plan.is_manual = true → currentPlanId = some plan.plan_id)
    (hother : some plan.plan_id ≠ currentPlanId) :
    renderPlanActionsIntegrations plan status currentPlanId ≠ PlanAction.setLive := by
  cases hm : plan.is_manual with
  | true => exact absurd (hinv hm).symm hother
  | false =>
    cases hs : (status == "live") with
    | true => simp [renderPlanActionsIntegrations, hcur, hm, hs]
    | false => simp [renderPlanActionsIntegrations, hcur, hm, hs]

/-- Concrete non-current list entry used by the C10 witness. -/
def uiOther10 : UIPlan :=
  { plan_id := "OTH", service_type_name := "Main", title := "", dates := "",
    live_time := 500, service_time := 900, is_live := false, is_manual := false,
    slot_assignments := [] }

/-- C10 witness: with current plan id CUR set, the plan with id OTH is not
offered the Set Live action. -/
theorem renderPlanActionsIntegrations_no_other_setLive_witness :
    renderPlanActionsIntegrations uiOther10 "upcoming" (some "CUR")
      ≠ PlanAction.setLive :=
  renderPlanActionsIntegrations_no_other_setLive uiOther10 "upcoming" (some "CUR")
    (by decide) (by decide) (by decide)

/-- C9 amended: the status annotation of renderPlansList takes exactly the
values upcoming, ready, live and manual-live: a live plan is annotated
live or manual-live, a non-live plan is annotated ready exactly when
liveTime <= now < serviceTime, and every other non-live plan - including a
plan past the end of day of its service time - is annotated upcoming;
there is no ended annotation. -/
theorem planStatus_characterization (plan : UIPlan) (now : Int) :
    (planStatus plan now = "upcoming" ∨ planStatus plan now = "ready"
      ∨ planStatus plan now = "live" ∨ planStatus plan now = "manual-live")
    ∧ (plan.is_live = false →
        (planStatus plan now = "ready" ↔
          plan.live_time ≤ now ∧ now < plan.service_time))
    ∧ (plan.is_live = true →
        planStatus plan now = (if plan.is_manual then "manual-live" else "live"))
    ∧ (plan.is_live = false → endOfDay plan.service_time < now →
        planStatus plan now = "upcoming") := by
  refine ⟨?_, ?_, ?_, ?_⟩
  · cases hl : plan.is_live with
    | true =>
      cases hm : plan.is_manual with
      | true => simp [planStatus, hl, hm]
      | false => simp [planStatus, hl, hm]
    | false =>
      by_cases hr : plan.live_time ≤ now ∧ now < plan.service_time
      · simp [planStatus, hl, hr]
      · simp [planStatus, hl, hr]
  · intro hl
    by_cases hr : plan.live_time ≤ now ∧ now < plan.service_time
    · simp [planStatus, hl, hr]
    · simp [planStatus, hl, hr]
  · intro hl
    simp [planStatus, hl]
  · intro hl hpast
    have hr : ¬(plan.live_time ≤ now ∧ now < plan.service_time) := by
      unfold endOfDay msPerDay at hpast
      omega
    simp [planStatus, hl, hr]

/-- Concrete ready-state plan used by the C9 witness. -/
def uiReady9 : UIPlan :=
  { plan_id := "R9", service_type_name := "Evening", title := "", dates := "",
    live_time := 0, service_time := 1000, is_live := false, is_manual := false,
    slot_assignments := [] }

/-- C9 witness: a non-live plan between its live time and its service time
is annotated ready. -/
theorem planStatus_characterization_witness :
    planStatus uiReady9 500 = "ready" :=
  ((planStatus_characterization uiReady9 500).2.1 rfl).mpr (by decide)

/-- Concrete plan past its live window used by the C9 counterexample. -/
def uiPast9 : UIPlan :=
  { plan_id := "P9", service_type_name := "Evening", title := "", dates := "",
    live_time := 0, service_time := 1000, is_live := false, is_manual := false,
    slot_assignments := [] }

/-- C9 counterexample: a plan past the end of day of its service time is
annotated upcoming, not ended - no ended annotation exists in the code. -/
theorem planStatus_pastPlan_counterexample :
    endOfDay uiPast9.service_time < 200000000
      ∧ planStatus uiPast9 200000000 = "upcoming"
      ∧ planStatus uiPast9 200000000 ≠ "ended" := by decide

/-- Value of applyEntries at a slot none of the entries names: unchanged. -/
theorem applyEntries_not_mem (entries : List (Nat × String)) (present : Nat → Bool)
    (slots : Nat → String) (n : Nat) (h : n ∉ entries.map Prod.fst) :
    applyEntries entries present slots n = slots n := by
  induction entries generalizing slots with
  | nil => rfl
  | cons e t ih =>
    have hsplit : n ≠ e.1 ∧ n ∉ t.map Prod.fst := by
      rw [List.map_cons, List.mem_cons] at h
      push_neg at h
      exact h
    show applyEntries t present
      (fun m => if present e.1 = true ∧ m = e.1 then e.2 else slots m) n = slots n
    rw [ih _ hsplit.2]
    exact if_neg (fun hc => hsplit.1 hc.2)

/-- C2 amended: the mapper omits a slot when no assignment matches its
rule with a confirmed or accepted status - no binding for that slot
appears in its output - but applySlotAssignmentsToUI first clears every
present slot input 1-6 to the empty string, so a present slot absent from
the applied mapping ends up cleared to the empty string rather than left
untouched. -/
theorem mapSlots_omission_and_ui_clearing
    (assignments : List Assignment) (rules : List ReuseRule) (s : Nat)
    (hnone : ∀ r ∈ rules, r.slot = s → ∀ a ∈ assignments, matchesRule r a = false)
    (entries : List (Nat × String)) (present : Nat → Bool) (slots : Nat → String)
    (save : Bool) (hs1 : 1 ≤ s) (hs6 : s ≤ 6) (hpres : present s = true)
    (hnotin : s ∉ entries.map Prod.fst) :
    (∀ n, (s, n) ∉ mapSlots assignments rules)
    ∧ (applySlotAssignmentsToUI entries present slots save).1 s = "" := by
  constructor
  · intro n hmem
    unfold mapSlots at hmem
    rw [List.mem_filterMap] at hmem
    obtain ⟨r, hr, hmap⟩ := hmem
    rw [Option.map_eq_some'] at hmap
    obtain ⟨a, hfind, heq⟩ := hmap
    have hslot : r.slot = s := congrArg Prod.fst heq
    have hain : a ∈ assignments := List.mem_of_find?_eq_some hfind
    have hmatch : matchesRule r a = true := List.find?_some hfind
    rw [hnone r hr hslot a hain] at hmatch
    cases hmatch
  · show applyEntries entries present (clearSlots present slots) s = ""
    rw [applyEntries_not_mem entries present _ s hnotin]
    exact if_pos ⟨hs1, hs6, hpres⟩

/-- Concrete declined assignment used by the C2 witness. -/
def asgDeclined : Assignment :=
  { teamName := "Band", positionName := "Vocals 1",
    personName := "Jane Smith", status := "declined" }

/-- Concrete reuse rule used by the C2 witness. -/
def ruleSlot3 : ReuseRule :=
  { slot := 3, teamName := "Band", positionName := "Vocals 1" }

/-- C2 witness: with only a declined match for the rule of slot 3, the
mapper emits no binding for slot 3, and applying an empty mapping leaves
the present slot 3 cleared to the empty string. -/
theorem mapSlots_omission_and_ui_clearing_witness :
    ((3, "Jane Smith") ∉ mapSlots [asgDeclined] [ruleSlot3])
      ∧ (applySlotAssignmentsToUI [] (fun _ => true) (fun _ => "x") false).1 3 = "" := by
  have h := mapSlots_omission_and_ui_clearing [asgDeclined] [ruleSlot3] 3 (by decide)
    [] (fun _ => true) (fun _ => "x") false (by decide) (by decide) rfl (by decide)
  exact ⟨h.1 "Jane Smith", h.2⟩

/-- C2 counterexample: applying the mapping with only a binding for slot 1
does not leave the unmentioned slot 2 untouched - its previous display
value Old Name is force-cleared to the empty string. -/
theorem applySlots_forceClears_counterexample :
    (2 ∉ ([(1, "Jane Smith")] : List (Nat × String)).map Prod.fst)
      ∧ (applySlotAssignmentsToUI [(1, "Jane Smith")]
          (fun n => decide (1 ≤ n ∧ n ≤ 6)) (fun _ => "Old Name") true).1 2 = ""
      ∧ ("Old Name" : String) ≠ "" := by decide

/-- C3 amended: with no live plan and no valid pin the resolution yields
the null plan without the manual flag, but the navbar indicator falls back
to the first cached plan-of-day entry: an entry with a service start, a
live time, and a truthy plan id is surfaced as a manually selected plan
whenever now precedes its live time; No Service is shown when the list is
empty or the fallback entry is past the end of day of its service start. -/
theorem noService_resolution_and_fallback
    (cache : List PlanRecord) (pin : Option String) (now : Int)
    (hnolive : ∀ p ∈ cache, planIsLive p now = false)
    (hnopin : ∀ pid, pin = some pid → ∀ p ∈ cache, p.plan_id ≠ pid)
    (pods : List Pod) (hnl : ∀ p ∈ pods, p.is_live = false) :
    selectPlan cache pin now = (none, false)
    ∧ (pods = [] → updateLiveServiceIndicator pods now
        = ⟨IndicatorState.noService, none, false⟩)
    ∧ (∀ pod, pods.head? = some pod →
        ∀ ss ls, jsOr pod.start_time pod.service_time = some ss →
          pod.live_time = some ls → jsTruthyStr pod.plan_id = true → now < ls →
          (updateLiveServiceIndicator pods now).state
            = IndicatorState.manualService (serviceName pod))
    ∧ (∀ pod, pods.head? = some pod →
        ∀ ss ls, jsOr pod.start_time pod.service_time = some ss →
          pod.live_time = some ls → ls ≤ now → endOfDay ss < now →
          (updateLiveServiceIndicator pods now).state = IndicatorState.noService) := by
  have hfind : pods.find? (fun p => p.is_live) = none := by
    rw [List.find?_eq_none]
    intro p hp
    simp [hnl p hp]
  have hpodeq : podOfDay pods = pods.head? := by
    unfold podOfDay
    rw [hfind]
  refine ⟨?_, ?_, ?_, ?_⟩
  · unfold selectPlan
    rw [autoLive_none_iff cache now hnolive]
    show selectFromPin cache pin = (none, false)
    cases pin with
    | none => rfl
    | some pid =>
      have hf : cache.find? (fun p => p.plan_id == pid) = none := by
        rw [List.find?_eq_none]
        intro p hp
        simp [hnopin pid rfl p hp]
      show pinLookup (cache.find? (fun p => p.plan_id == pid)) = (none, false)
      rw [hf]
      rfl
  · intro hempty
    subst hempty
    rfl
  · intro pod hhead ss ls hss hls hid hnow
    have hpod : podOfDay pods = some pod := by rw [hpodeq, hhead]
    unfold updateLiveServiceIndicator
    rw [hpod]
    have hred : indicatorForPod (some pod) now
        = matchServiceTimes pod (jsOr pod.start_time pod.service_time)
            pod.live_time now := rfl
    rw [hred, hss, hls]
    have hred2 : matchServiceTimes pod (some ss) (some ls) now
        = indicatorCore pod ss ls now := rfl
    rw [hred2]
    unfold indicatorCore
    rw [if_neg (by omega : ¬(ls ≤ now ∧ now ≤ endOfDay ss))]
    rw [if_pos ⟨hid, hnow⟩]
  · intro pod hhead ss ls hss hls hge hpast
    have hpod : podOfDay pods = some pod := by rw [hpodeq, hhead]
    unfold updateLiveServiceIndicator
    rw [hpod]
    have hred : indicatorForPod (some pod) now
        = matchServiceTimes pod (jsOr pod.start_time pod.service_time)
            pod.live_time now := rfl
    rw [hred, hss, hls]
    have hred2 : matchServiceTimes pod (some ss) (some ls) now
        = indicatorCore pod ss ls now := rfl
    rw [hred2]
    unfold indicatorCore
    rw [if_neg (by omega : ¬(ls ≤ now ∧ now ≤ endOfDay ss))]
    rw [if_neg (fun hc => absurd hc.2 (by omega : ¬ now < ls))]

/-- Concrete fallback plan-of-day entry used by the C3 witness. -/
def podW3 : Pod :=
  { plan_id := some "W3", start_time := none, service_time := some 900,
    live_time := some 800, service_type_name := some "Midweek", title := none,
    names_by_slot := none, slot_assignments := none,
    is_live := false, is_manual := false }

/-- C3 witness: an empty cache with no pin resolves to no service, while
the indicator surfaces the upcoming fallback entry as manually selected. -/
theorem noService_resolution_and_fallback_witness :
    selectPlan [] none 42 = (none, false)
      ∧ (updateLiveServiceIndicator [podW3] 42).state
        = IndicatorState.manualService "Midweek" := by
  have h := noService_resolution_and_fallback [] none 42 (by simp)
    (fun pid hpid => nomatch hpid) [podW3] (by decide)
  exact ⟨h.1, h.2.2.1 podW3 rfl 900 800 rfl rfl (by decide) (by decide)⟩

/-- Concrete plan-of-day entry used by the C3 counterexample. -/
def podC3 : Pod :=
  { plan_id := some "PLAN1", start_time := none, service_time := some 200,
    live_time := some 100, service_type_name := some "Sunday Gathering",
    title := none, names_by_slot := some [(1, "Jane Smith")],
    slot_assignments := none, is_live := false, is_manual := false }

/-- C3 counterexample: at time 50 no live window of the cache entry
contains now and no manual pin exists, yet the indicator surfaces the
cached plan as manually selected and applies its slot assignments instead
of showing No Service. -/
theorem noService_claim_counterexample :
    isLive 100 200 50 = false
      ∧ podC3.is_manual = false
      ∧ (updateLiveServiceIndicator [podC3] 50).state
        = IndicatorState.manualService "Sunday Gathering"
      ∧ (updateLiveServiceIndicator [podC3] 50).state ≠ IndicatorState.noService
      ∧ (updateLiveServiceIndicator [podC3] 50).applied = some [(1, "Jane Smith")] := by
  decide

/-- C5 amended: with no auto-live plan a pin naming a cached plan resolves
to that plan with the manual flag set, but the indicator surfaces a plan
as manually selected whenever the fallback plan-of-day entry has a truthy
plan id and now precedes its live time - independently of whether a manual
pin exists (here no entry carries the manual flag). -/
theorem manualPin_fallback_and_surfacing
    (cache : List PlanRecord) (pid : String) (now : Int) (P : PlanRecord)
    (hauto : autoLive cache now = none)
    (hfind : cache.find? (fun p => p.plan_id == pid) = some P)
    (pods : List Pod) (pod : Pod) (ss ls : Int)
    (hnl : pods.find? (fun p => p.is_live) = none)
    (hhead : pods.head? = some pod)
    (_hnm : ∀ q ∈ pods, q.is_manual = false)
    (hss : jsOr pod.start_time pod.service_time = some ss)
    (hls : pod.live_time = some ls)
    (hid : jsTruthyStr pod.plan_id = true)
    (hnow : now < ls) :
    selectPlan cache (some pid) now = (some P, true)
    ∧ (updateLiveServiceIndicator pods now).state
        = IndicatorState.manualService (serviceName pod) := by
  constructor
  · unfold selectPlan
    rw [hauto]
    show pinLookup (cache.find? (fun p => p.plan_id == pid)) = (some P, true)
    rw [hfind]
    rfl
  · have hpod : podOfDay pods = some pod := by
      unfold podOfDay
      rw [hnl, hhead]
    unfold updateLiveServiceIndicator
    rw [hpod]
    have hred : indicatorForPod (some pod) now
        = matchServiceTimes pod (jsOr pod.start_time pod.service_time)
            pod.live_time now := rfl
    rw [hred, hss, hls]
    have hred2 : matchServiceTimes pod (some ss) (some ls) now
        = indicatorCore pod ss ls now := rfl
    rw [hred2]
    unfold indicatorCore
    rw [if_neg (by omega : ¬(ls ≤ now ∧ now ≤ endOfDay ss))]
    rw [if_pos ⟨hid, hnow⟩]

/-- Concrete cached plan used by the C5 witness. -/
def planW5 : PlanRecord :=
  { plan_id := "W5", serviceTypeId := "2", serviceTypeName := "Youth",
    title := "", serviceTime := 900, liveTime := 500, assignments := [] }

/-- Concrete plan-of-day entry used by the C5 witness. -/
def podW5 : Pod :=
  { plan_id := some "W5", start_time := some 900, service_time := none,
    live_time := some 500, service_type_name := some "Youth Night",
    title := none, names_by_slot := none, slot_assignments := none,
    is_live := false, is_manual := false }

/-- C5 witness: with no auto-live plan, a pin on the cached plan resolves
to it with the manual flag, while the indicator shows the fallback entry
as manually selected. -/
theorem manualPin_fallback_and_surfacing_witness :
    selectPlan [planW5] (some "W5") 10 = (some planW5, true)
      ∧ (updateLiveServiceIndicator [podW5] 10).state
        = IndicatorState.manualService "Youth Night" :=
  manualPin_fallback_and_surfacing [planW5] "W5" 10 planW5 (by decide) (by decide)
    [podW5] podW5 900 500 (by decide) rfl (by decide) rfl rfl (by decide) (by decide)

/-- Concrete unpinned upcoming entry used by the C5 counterexample. -/
def podC5 : Pod :=
  { plan_id := some "PLAN2", start_time := some 900, service_time := none,
    live_time := some 500, service_type_name := some "Band Rehearsal",
    title := none, names_by_slot := none, slot_assignments := some [(2, "Sam Lee")],
    is_live := false, is_manual := false }

/-- C5 counterexample: no entry is live or carries the manual flag - no
manual pin exists - yet the indicator surfaces the entry as manually
selected, refuting that a plan is surfaced as manually selected only when
a pin exists. -/
theorem manualSurfacing_without_pin_counterexample :
    podC5.is_manual = false
      ∧ podC5.is_live = false
      ∧ (updateLiveServiceIndicator [podC5] 10).state
        = IndicatorState.manualService "Band Rehearsal"
      ∧ (updateLiveServiceIndicator [podC5] 10).applied = some [(2, "Sam Lee")] := by
  decide

/-- C8 amended: resolution and slot mapping are pure - evaluating
getCurrentSlotAssignments twice on the same inputs yields identical
output - but the frontend evaluation is not free of shared-state effects:
the indicator fires the schedule-cache force-refresh exactly when it shows
a live service, and applying slot assignments clicks the save button
whenever it exists, persisting the slot configuration. -/
theorem resolution_pure_but_evaluation_effectful
    (cache : List PlanRecord) (pin : Option String) (now : Int) (rules : List ReuseRule)
    (pods : List Pod) (entries : List (Nat × String)) (present : Nat → Bool)
    (slots : Nat → String) :
    getCurrentSlotAssignments cache pin now rules
      = getCurrentSlotAssignments cache pin now rules
    ∧ ((updateLiveServiceIndicator pods now).refreshCache = true ↔
        ∃ name, (updateLiveServiceIndicator pods now).state
          = IndicatorState.liveService name)
    ∧ (applySlotAssignmentsToUI entries present slots true).2 = true := by
  refine ⟨rfl, ?_, rfl⟩
  unfold updateLiveServiceIndicator
  cases hpod : podOfDay pods with
  | none => simp [indicatorForPod]
  | some pod =>
    have hred : indicatorForPod (some pod) now
        = matchServiceTimes pod (jsOr pod.start_time pod.service_time)
            pod.live_time now := rfl
    rw [hred]
    cases hss : jsOr pod.start_time pod.service_time with
    | none =>
      cases hls : pod.live_time with
      | none =>
        have hterm : matchServiceTimes pod none none now
            = ⟨IndicatorState.noService, none, false⟩ := rfl
        rw [hterm]
        simp
      | some ls =>
        have hterm : matchServiceTimes pod none (some ls) now
            = ⟨IndicatorState.noService, none, false⟩ := rfl
        rw [hterm]
        simp
    | some ss =>
      cases hls : pod.live_time with
      | none =>
        have hterm : matchServiceTimes pod (some ss) none now
            = ⟨IndicatorState.noService, none, false⟩ := rfl
        rw [hterm]
        simp
      | some ls =>
        have hred2 : matchServiceTimes pod (some ss) (some ls) now
            = indicatorCore pod ss ls now := rfl
        rw [hred2]
        unfold indicatorCore
        by_cases h1 : ls ≤ now ∧ now ≤ endOfDay ss
        · rw [if_pos h1]
          constructor
          · intro _
            exact ⟨serviceName pod, rfl⟩
          · intro _
            rfl
        · rw [if_neg h1]
          by_cases h2 : jsTruthyStr pod.plan_id = true ∧ now < ls
          · rw [if_pos h2]
            simp
          · rw [if_neg h2]
            simp

/-- Concrete live plan-of-day entry used by the C8 counterexample. -/
def podC8 : Pod :=
  { plan_id := some "P8", start_time := some 0, service_time := none,
    live_time := some 0, service_type_name := some "Main Service",
    title := none, names_by_slot := none, slot_assignments := some [(2, "Alex Doe")],
    is_live := true, is_manual := false }

/-- C8 counterexample: evaluating the indicator on a live entry fires the
schedule-cache force-refresh, and applying assignments clicks the save
button - the evaluation mutates shared state. -/
theorem evaluation_effects_counterexample :
    (updateLiveServiceIndicator [podC8] 0).refreshCache = true
      ∧ (applySlotAssignmentsToUI [(2, "Alex Doe")]
          (fun n => decide (1 ≤ n ∧ n ≤ 6)) (fun _ => "") true).2 = true := by
  decide

/-- C8 witness: the save-click effect evaluated on concrete inputs. -/
theorem resolution_pure_but_evaluation_effectful_witness :
    (applySlotAssignmentsToUI [] (fun _ => false) (fun _ => "n") true).2 = true :=
  (resolution_pure_but_evaluation_effectful [] none 0 [] [] []
    (fun _ => false) (fun _ => "n")).2.2
